import Mathlib

/-!
Verification of the orchestration core of `src/instagram_downloader.py`.

The development shallowly embeds the script's pure logic and its
orchestration loops:

* `extract_shortcode_from_url` models the function of the same name
  (lines 108-116): Python `str.strip`, then `re.search` with the pattern
  `(?:https?://)?(?:www\.)?instagram\.com/(?:p|reel|tv)/([A-Za-z0-9_-]+)`.
  The search is modelled position by position, leftmost match first; at a
  fixed position the literal alternatives of the pattern are mutually
  exclusive on their first character, so the sequential tries below are
  exactly the backtracking behaviour of the Python engine.
* `profileLoop` / `download_profile_posts` model the loop of
  `download_profile_posts` (lines 54-82), with the external collaborator
  (instaloader) abstracted to the list of posts its paginated listing
  yields and a per-post success bit for `loader.download_post`.
* `download_post_by_shortcode` (lines 84-106) with the collaborator
  abstracted to a per-shortcode outcome (fetch error, download error,
  success).
* `shortcodeLoop` / `download_shortcodes_from_file` (lines 118-128).
* `mainModel` models `main` (lines 130-168); `sys.exit(n)` is modelled as
  exit code `n`, normal return as exit code 0, and `argparse` usage errors
  as exit code 2.

Observable behaviour (prints, iterator pulls, calls into the collaborator)
is recorded as a list of events `Ev`, so that temporal claims (what was
materialized, what was attempted, what was reported) can be stated.
-/

/-- The character class `[A-Za-z0-9_-]` of the Python regex. -/
def isIdentChar (c : Char) : Bool :=
  c.isAlpha || c.isDigit || c == '_' || c == '-'

/-- The whitespace removed by Python `str.strip()` (ASCII part). -/
def isPySpace (c : Char) : Bool :=
  c == ' ' || c == '\t' || c == '\n' || c == '\r' || c == '\x0b' || c == '\x0c'

/-- Python `str.strip()` on a list of characters. -/
def pyStrip (s : List Char) : List Char :=
  ((s.dropWhile isPySpace).reverse.dropWhile isPySpace).reverse

/-- Python `str.strip()` on a `String`. -/
def pyStripStr (s : String) : String := ⟨pyStrip s.data⟩

/-- The literal `https://` of the regex branch `https?://` with the `s`. -/
def schemeHttps : List Char := ['h', 't', 't', 'p', 's', ':', '/', '/']

/-- The literal `http://` of the regex branch `https?://` without the `s`. -/
def schemeHttp : List Char := ['h', 't', 't', 'p', ':', '/', '/']

/-- The literal of the optional `www\.` group. -/
def wwwLit : List Char := ['w', 'w', 'w', '.']

/-- The literal `instagram\.com/` of the regex. -/
def instaLit : List Char :=
  ['i', 'n', 's', 't', 'a', 'g', 'r', 'a', 'm', '.', 'c', 'o', 'm', '/']

/-- Strip a literal from the front of `s`; `none` when `s` does not start
with the literal. -/
def stripLit : List Char → List Char → Option (List Char)
  | [], s => some s
  | _ :: _, [] => none
  | a :: l, b :: s => if a = b then stripLit l s else none

/-- Strip an optional literal group `(?:lit)?`: remove it when present,
otherwise leave the input unchanged. -/
def stripOpt (lit s : List Char) : List Char :=
  match stripLit lit s with
  | some r => r
  | none => s

/-- The optional scheme group `(?:https?://)?`: greedy, `https://` before
`http://`, the empty alternative last. -/
def stripScheme (s : List Char) : List Char :=
  match stripLit schemeHttps s with
  | some r => r
  | none => stripOpt schemeHttp s

/-- The group `(?:p|reel|tv)/`: the three alternatives in regex order, each
followed by the literal slash. -/
def stripSeg (s : List Char) : Option (List Char) :=
  match stripLit ['p', '/'] s with
  | some r => some r
  | none =>
    match stripLit ['r', 'e', 'e', 'l', '/'] s with
    | some r => some r
    | none => stripLit ['t', 'v', '/'] s

/-- Try to match the whole pattern at the start of `s`, returning the
captured group `([A-Za-z0-9_-]+)` (greedy, maximal run, at least one
character). -/
def matchFrom (s : List Char) : Option (List Char) :=
  match stripLit instaLit (stripOpt wwwLit (stripScheme s)) with
  | none => none
  | some s3 =>
    match stripSeg s3 with
    | none => none
    | some s4 =>
      if (s4.takeWhile isIdentChar).isEmpty then none
      else some (s4.takeWhile isIdentChar)

/-- `re.search`: try the pattern at every position left to right and
return the leftmost match's captured group. -/
def searchFrom : List Char → Option (List Char)
  | [] => none
  | c :: t =>
    match matchFrom (c :: t) with
    | some r => some r
    | none => searchFrom t

/-- Model of `extract_shortcode_from_url` (src lines 108-116): strip the
input, search for the pattern, return the captured group or `None`. -/
def extract_shortcode_from_url (url : String) : Option String :=
  match searchFrom (pyStrip url.data) with
  | some cs => some ⟨cs⟩
  | none => none

/-- The claim C6 speaks of the URL's host.  This definition follows the
claim's words, not the code: the authority component after the optional
scheme, up to the first `/`, `?` or `#`.  It is used only to state the
counterexample that the code does not actually validate the host. -/
def specUrlHost (url : String) : String :=
  ⟨(stripScheme (pyStrip url.data)).takeWhile
    (fun c => !(c == '/' || c == '?' || c == '#'))⟩

/-- The continuation after `instagram.com/` completes the pattern: a
`p`/`reel`/`tv` segment and then at least one identifier character. -/
def segMatchAfter (r : List Char) : Bool :=
  match stripSeg r with
  | none => false
  | some u => !(u.takeWhile isIdentChar).isEmpty

/-- `true` iff no suffix of `s` starts with `instagram.com/` continued by a
`p`/`reel`/`tv` segment and an identifier character — i.e. the Python
pattern occurs nowhere in `s`. -/
def noInstaSegMatch : List Char → Bool
  | [] => true
  | a :: t =>
    (match stripLit instaLit (a :: t) with
      | some r => !segMatchAfter r
      | none => true) && noInstaSegMatch t

/-- State of the shared `Instaloader` instance, reduced to the one piece of
configuration the script mutates: `loader.filename_pattern`. -/
structure LoaderState where
  filename_pattern : String
deriving DecidableEq

/-- One element yielded by `profile.get_posts()`: its shortcode, and the
collaborator's behaviour when `loader.download_post` is called on it
(`ok = true`: the call returns; `ok = false`: it raises). -/
structure Post where
  shortcode : String
  ok : Bool
deriving DecidableEq

/-- Collaborator behaviour for one shortcode in the single-post path:
`Post.from_shortcode` raises (`fetchError`), or it returns and then
`loader.download_post` raises (`downloadError`), or everything succeeds. -/
inductive PostOutcome where
  | fetchError
  | downloadError
  | success
deriving DecidableEq

/-- Observable events of a run.

* `pull sc` — the `for` statement materialized the next element of the
  paginated listing (called `next` on `profile.get_posts()`).
* `attempt sc` — processing of item `sc` began (the per-item status print
  at the top of the `try` block).
* `downloadCall sc target pat` — `loader.download_post` was invoked for
  item `sc` with directory `target` while `loader.filename_pattern = pat`.
* `itemOk sc` / `itemFailed sc` — the item completed / its failure was
  caught and reported at the item boundary.
* `msg s` — a diagnostic print. -/
inductive Ev where
  | pull (sc : String)
  | attempt (sc : String)
  | downloadCall (sc target pat : String)
  | itemOk (sc : String)
  | itemFailed (sc : String)
  | msg (s : String)
deriving DecidableEq

/-- Shortcodes of the items whose processing began, in order. -/
def attemptsOf : List Ev → List String
  | [] => []
  | Ev.attempt sc :: rest => sc :: attemptsOf rest
  | _ :: rest => attemptsOf rest

/-- Shortcodes materialized from the paginated listing, in order. -/
def pullsOf : List Ev → List String
  | [] => []
  | Ev.pull sc :: rest => sc :: pullsOf rest
  | _ :: rest => pullsOf rest

/-- Shortcodes whose failure was caught and reported, in order. -/
def failuresOf : List Ev → List String
  | [] => []
  | Ev.itemFailed sc :: rest => sc :: failuresOf rest
  | _ :: rest => failuresOf rest

/-- The `for post in posts:` loop of `download_profile_posts`
(src lines 60-75).  The Python `for` statement pulls the next element
first; the body then checks `count > 0 and downloaded >= count` and
breaks.  On success the inner `try` sets `loader.filename_pattern` to the
shortcode, downloads, restores the saved pattern and increments
`downloaded`; when `download_post` raises, the `except` branch reports and
continues, skipping both the restore and the increment.  Returns the
events, the final loader state and the final `downloaded` counter. -/
def profileLoop (count : Nat) (st : LoaderState) (downloaded : Nat) :
    List Post → List Ev × LoaderState × Nat
  | [] => ([], st, downloaded)
  | p :: rest =>
    if 0 < count ∧ count ≤ downloaded then
      ([Ev.pull p.shortcode], st, downloaded)
    else
      if p.ok then
        let r := profileLoop count ⟨st.filename_pattern⟩ (downloaded + 1) rest
        (Ev.pull p.shortcode :: Ev.attempt p.shortcode ::
            Ev.downloadCall p.shortcode p.shortcode p.shortcode ::
            Ev.itemOk p.shortcode :: r.1,
          r.2.1, r.2.2)
      else
        let r := profileLoop count ⟨p.shortcode⟩ downloaded rest
        (Ev.pull p.shortcode :: Ev.attempt p.shortcode ::
            Ev.downloadCall p.shortcode p.shortcode p.shortcode ::
            Ev.itemFailed p.shortcode :: r.1,
          r.2.1, r.2.2)

/-- Model of `download_profile_posts` (src lines 54-82).  The collaborator
is abstracted to `profileExists` (`Profile.from_username` succeeds) and
`posts` (what `profile.get_posts()` yields).  `save_dir` and `posts_only`
are bound but never used, exactly as in the source.  `Err n` models
`sys.exit(n)`. -/
inductive RunResult where
  | ok (evs : List Ev) (st : LoaderState) (downloaded : Nat)
  | fatal (evs : List Ev) (code : Nat)
deriving DecidableEq

def download_profile_posts (profileExists : Bool) (posts : List Post)
    (st : LoaderState) (target_profile : String) (save_dir : String)
    (count : Nat) (posts_only : Bool) : RunResult :=
  if profileExists then
    let r := profileLoop count st 0 posts
    RunResult.ok r.1 r.2.1 r.2.2
  else
    RunResult.fatal
      [Ev.msg ("Error: Profile @" ++ target_profile ++ " does not exist or is private")] 1

/-- Model of `download_post_by_shortcode` (src lines 84-106).  Returns the
Python return value, the loader state after the call, and the events.  On
`downloadError` the inner `except` returns `False` before the line that
restores `filename_pattern` runs, so the state keeps the shortcode. -/
def download_post_by_shortcode (fetch : String → PostOutcome)
    (st : LoaderState) (shortcode : String) (save_dir : String) :
    Bool × LoaderState × List Ev :=
  match fetch shortcode with
  | PostOutcome.fetchError =>
    (false, st,
      [Ev.attempt shortcode,
        Ev.msg ("Error: Post with shortcode " ++ shortcode ++ " does not exist or is not accessible")])
  | PostOutcome.downloadError =>
    (false, ⟨shortcode⟩,
      [Ev.attempt shortcode,
        Ev.downloadCall shortcode shortcode shortcode,
        Ev.itemFailed shortcode])
  | PostOutcome.success =>
    (true, ⟨st.filename_pattern⟩,
      [Ev.attempt shortcode,
        Ev.downloadCall shortcode shortcode shortcode,
        Ev.itemOk shortcode])

/-- The `for shortcode in shortcodes:` loop of
`download_shortcodes_from_file` (src lines 126-127); the return value of
each `download_post_by_shortcode` call is discarded. -/
def shortcodeLoop (fetch : String → PostOutcome) (st : LoaderState) :
    List String → List Ev × LoaderState
  | [] => ([], st)
  | sc :: rest =>
    let r := download_post_by_shortcode fetch st sc "."
    let rec1 := shortcodeLoop fetch r.2.1 rest
    (r.2.2 ++ rec1.1, rec1.2)

/-- The list comprehension
`[line.strip() for line in f if line.strip()]` (src line 124). -/
def cleanLines (lines : List String) : List String :=
  (lines.map pyStripStr).filter (fun l => !(l == ""))

/-- Model of `download_shortcodes_from_file` (src lines 118-128).  When the
file does not exist the function prints and returns — it does not call
`sys.exit`. -/
def download_shortcodes_from_file (fileExists : Bool) (fileLines : List String)
    (fetch : String → PostOutcome) (st : LoaderState) (filepath : String) :
    List Ev × LoaderState :=
  if fileExists then
    shortcodeLoop fetch st (cleanLines fileLines)
  else
    ([Ev.msg ("Shortcode file " ++ filepath ++ " not found.")], st)

/-- The shortest prefix of the listing containing `n` successful items (the
whole listing when it holds fewer).  `downloaded` counts successes only, so
this is exactly what a run with cap `n` attempts. -/
def firstNSucc : Nat → List Post → List Post
  | _, [] => []
  | n, p :: t =>
    if p.ok then
      (if n ≤ 1 then [p] else p :: firstNSucc (n - 1) t)
    else p :: firstNSucc n t

/-- The parsed command line (src lines 13-25).  `directory` defaults to
`"downloads"`, `count` to `0`, `posts_only` to `False`. -/
structure Args where
  username : Option String
  target : Option String
  count : Nat
  directory : String
  posts_only : Bool
  shortcode : Option String
  post_url : Option String
  shortcodes_file : Option String
deriving DecidableEq

/-- The `argparse` default for the `--directory` flag (src line 19). -/
def defaultDirectory : String := "downloads"

/-- The environment outside the orchestration core: login outcome, the
profile listing, per-shortcode download outcomes, the shortcode file, and
the library default of `filename_pattern`. -/
structure World where
  loginOk : Bool
  profileExists : Bool
  posts : List Post
  fetch : String → PostOutcome
  fileExists : Bool
  fileLines : List String
  defaultPat : String

/-- `create_instance` (src lines 27-52) succeeds unless a username was
given and the login fails (both login exceptions call `sys.exit(1)`). -/
def create_instance_ok (w : World) (username : Option String) : Bool :=
  match username with
  | none => true
  | some _ => w.loginOk

/-- Events plus the process exit status (0 = normal return). -/
structure MainResult where
  evs : List Ev
  exitCode : Nat
deriving DecidableEq

/-- Model of `main` (src lines 130-168).  Branch order is the source's:
the shortcodes-file mode first (returns normally afterwards), then the
usage check (`parser.error` exits with status 2), then `create_instance`,
then URL mode, shortcode mode, profile mode. -/
def mainModel (w : World) (a : Args) : MainResult :=
  match a.shortcodes_file with
  | some fp =>
    if create_instance_ok w a.username then
      let r := download_shortcodes_from_file w.fileExists w.fileLines w.fetch ⟨w.defaultPat⟩ fp
      ⟨r.1, 0⟩
    else ⟨[Ev.msg "Error: Invalid credentials or connection error"], 1⟩
  | none =>
    if a.target = none ∧ a.shortcode = none ∧ a.post_url = none then
      ⟨[Ev.msg "usage error: provide a target, a shortcode or a post url"], 2⟩
    else if create_instance_ok w a.username then
      match a.post_url with
      | some u =>
        match extract_shortcode_from_url u with
        | some sc =>
          let r := download_post_by_shortcode w.fetch ⟨w.defaultPat⟩ sc a.directory
          ⟨r.2.2, 0⟩
        | none =>
          ⟨[Ev.msg "Error: Could not extract shortcode from the provided URL"], 1⟩
      | none =>
        match a.shortcode with
        | some sc =>
          let r := download_post_by_shortcode w.fetch ⟨w.defaultPat⟩ sc a.directory
          ⟨r.2.2, 0⟩
        | none =>
          match a.target with
          | some tp =>
            match download_profile_posts w.profileExists w.posts ⟨w.defaultPat⟩ tp
                a.directory a.count a.posts_only with
            | RunResult.ok evs _ _ => ⟨evs, 0⟩
            | RunResult.fatal evs c => ⟨evs, c⟩
          | none => ⟨[], 0⟩
    else ⟨[Ev.msg "Error: Invalid credentials or connection error"], 1⟩

/-! ### Sanity checks of the embedding on concrete inputs -/

example : extract_shortcode_from_url "https://www.instagram.com/p/ABC123/?x=1" = some "ABC123" := by decide
example : extract_shortcode_from_url "instagram.com/p/XyZ_123/" = some "XyZ_123" := by decide
example : extract_shortcode_from_url "  http://instagram.com/reel/a-b_c#frag " = some "a-b_c" := by decide
example : extract_shortcode_from_url "https://instagram.com/tv/Q" = some "Q" := by decide
example : extract_shortcode_from_url "https://www.instagram.com/stories/xyz/1" = none := by decide
example : extract_shortcode_from_url "xinstagram.com/p/AB" = some "AB" := by decide
example : extract_shortcode_from_url "instagram.com/p/" = none := by decide
example : extract_shortcode_from_url "instagram.com/tv/instagram.com/p/AB" = some "instagram" := by decide

example :
    pullsOf (profileLoop 1 ⟨"d"⟩ 0 [⟨"A", true⟩, ⟨"B", true⟩]).1 = ["A", "B"] := by decide
example :
    (profileLoop 0 ⟨"d"⟩ 0 [⟨"A", false⟩, ⟨"B", true⟩]).2.1 = ⟨"A"⟩ := by decide
example :
    attemptsOf (download_shortcodes_from_file true ["AAA111", "", "BBB222"]
      (fun _ => PostOutcome.success) ⟨"d"⟩ "f.txt").1 = ["AAA111", "BBB222"] := by decide
example :
    (mainModel ⟨true, true, [], fun _ => PostOutcome.success, false, [], "pat"⟩
      ⟨none, none, 0, "downloads", false, none, none, some "codes.txt"⟩).exitCode = 0 := by decide

/-! ### Lemmas about the orchestration loops -/

lemma attemptsOf_append (a b : List Ev) :
    attemptsOf (a ++ b) = attemptsOf a ++ attemptsOf b := by
  induction a with
  | nil => simp [attemptsOf]
  | cons e t ih => cases e <;> simp [attemptsOf, ih]

/-- With `count = 0` every yielded item is attempted, in order, no matter
how many downloads fail. -/
lemma profileLoop_attempts_nocap (posts : List Post) :
    ∀ (st : LoaderState) (d : Nat),
      attemptsOf (profileLoop 0 st d posts).1 = posts.map Post.shortcode := by
  induction posts with
  | nil => intro st d; simp [profileLoop, attemptsOf]
  | cons p t ih =>
    intro st d
    cases hok : p.ok <;> simp [profileLoop, hok, attemptsOf, ih]

/-- With `count = 0` exactly the failing items are reported as failures,
in order. -/
lemma profileLoop_failures_nocap (posts : List Post) :
    ∀ (st : LoaderState) (d : Nat),
      failuresOf (profileLoop 0 st d posts).1 =
        (posts.filter (fun p => !p.ok)).map Post.shortcode := by
  induction posts with
  | nil => intro st d; simp [profileLoop, failuresOf]
  | cons p t ih =>
    intro st d
    cases hok : p.ok <;> simp [profileLoop, hok, failuresOf, ih, List.filter]

/-- Once `downloaded` has reached a positive `count`, the loop attempts
nothing further. -/
lemma profileLoop_attempts_stop (count : Nat) (st : LoaderState) (d : Nat)
    (posts : List Post) (h1 : 0 < count) (h2 : count ≤ d) :
    attemptsOf (profileLoop count st d posts).1 = [] := by
  cases posts with
  | nil => simp [profileLoop, attemptsOf]
  | cons p t => simp [profileLoop, h1, h2, attemptsOf]

/-- Once `downloaded` has reached a positive `count`, the loop pulls
exactly one further element (the `for` statement materializes it before
the `break`). -/
lemma profileLoop_pulls_stop (count : Nat) (st : LoaderState) (d : Nat)
    (q : Post) (t : List Post) (h1 : 0 < count) (h2 : count ≤ d) :
    pullsOf (profileLoop count st d (q :: t)).1 = [q.shortcode] := by
  simp [profileLoop, h1, h2, pullsOf]

/-- With a positive cap the attempted items are the shortest prefix of the
listing holding `count - d` successes: the cap counts successes, not
attempts. -/
lemma profileLoop_attempts_cap (posts : List Post) :
    ∀ (count : Nat) (st : LoaderState) (d : Nat), d < count →
      attemptsOf (profileLoop count st d posts).1 =
        (firstNSucc (count - d) posts).map Post.shortcode := by
  induction posts with
  | nil => intro count st d h; simp [profileLoop, firstNSucc, attemptsOf]
  | cons p t ih =>
    intro count st d h
    have hc : ¬(0 < count ∧ count ≤ d) := by omega
    cases hok : p.ok with
    | true =>
      by_cases h2 : count ≤ d + 1
      · have hcd : count - d = 1 := by omega
        simp [profileLoop, hc, hok, attemptsOf, hcd, firstNSucc,
          profileLoop_attempts_stop count ⟨st.filename_pattern⟩ (d + 1) t (by omega) h2]
      · have h3 : d + 1 < count := by omega
        have hk : ¬(count - d ≤ 1) := by omega
        have hcd : count - d - 1 = count - (d + 1) := by omega
        simp [profileLoop, hc, hok, attemptsOf, firstNSucc, hk, hcd,
          ih count ⟨st.filename_pattern⟩ (d + 1) h3]
    | false =>
      simp [profileLoop, hc, hok, attemptsOf, firstNSucc,
        ih count ⟨p.shortcode⟩ d h]

/-- When every item succeeds, the shortest prefix with `n` successes is
just the first `n` items. -/
lemma firstNSucc_allok (l : List Post) :
    ∀ n, 0 < n → (∀ p ∈ l, p.ok = true) → firstNSucc n l = l.take n := by
  induction l with
  | nil => intro n _ _; simp [firstNSucc]
  | cons p t ih =>
    intro n hn hok
    have hpok : p.ok = true := hok p (by simp)
    by_cases h1 : n ≤ 1
    · have hn1 : n = 1 := by omega
      subst hn1
      simp [firstNSucc, hpok]
    · have hx : n = (n - 1) + 1 := by omega
      rw [firstNSucc, if_pos hpok, if_neg h1,
        ih (n - 1) (by omega) (fun q hq => hok q (by simp [hq])), hx]
      simp

/-- With a positive cap, an all-successful listing, and `count - d` still
to download, the loop pulls `count - d + 1` elements: each attempted item
plus the one materialized by the `for` statement before the `break`. -/
lemma profileLoop_pulls_cap (posts : List Post) :
    ∀ (count : Nat) (st : LoaderState) (d : Nat), d < count →
      (∀ p ∈ posts, p.ok = true) → count - d < posts.length →
      pullsOf (profileLoop count st d posts).1 =
        (posts.take (count - d + 1)).map Post.shortcode := by
  induction posts with
  | nil => intro count st d h hok hlen; simp at hlen
  | cons p t ih =>
    intro count st d h hok hlen
    have hc : ¬(0 < count ∧ count ≤ d) := by omega
    have hpok : p.ok = true := hok p (by simp)
    by_cases h2 : count ≤ d + 1
    · have hcd : count - d = 1 := by omega
      have h0 : 0 < count := by omega
      cases t with
      | nil => rw [hcd] at hlen; simp at hlen
      | cons q t2 =>
        have hnd : ¬count ≤ d := by omega
        simp [profileLoop, hc, hnd, hpok, pullsOf, hcd, h0, h2]
    · have h3 : d + 1 < count := by omega
      have hlen2 : count - (d + 1) < t.length := by
        simp only [List.length_cons] at hlen; omega
      have hrec := ih count ⟨st.filename_pattern⟩ (d + 1) h3
        (fun q hq => hok q (by simp [hq])) hlen2
      have hcd : count - d + 1 = (count - (d + 1) + 1) + 1 := by omega
      rw [hcd]
      simp [profileLoop, hc, hpok, pullsOf, hrec]

/-! ### Lemmas about the resolver -/

lemma stripLit_eq_append {l s r : List Char} (h : stripLit l s = some r) :
    s = l ++ r := by
  induction l generalizing s with
  | nil => simpa [stripLit] using h
  | cons a l ih =>
    cases s with
    | nil => simp [stripLit] at h
    | cons b t =>
      by_cases hab : a = b
      · subst hab
        simp only [stripLit, if_pos rfl] at h
        simpa using ih h
      · simp [stripLit, hab] at h

lemma stripLit_self_append (l s : List Char) : stripLit l (l ++ s) = some s := by
  induction l with
  | nil => simp [stripLit]
  | cons a t ih => simp [stripLit, ih]

/-- A successful leftmost search exhibits a suffix where the pattern
matches. -/
lemma searchFrom_some {s c : List Char} (h : searchFrom s = some c) :
    ∃ u t, u ++ t = s ∧ matchFrom t = some c := by
  induction s with
  | nil => simp [searchFrom] at h
  | cons a t ih =>
    rw [searchFrom] at h
    cases hm : matchFrom (a :: t) with
    | some r =>
      rw [hm] at h
      exact ⟨[], a :: t, rfl, by rw [hm]; exact h⟩
    | none =>
      rw [hm] at h
      obtain ⟨u, t', hu, hmt⟩ := ih h
      exact ⟨a :: u, t', by simp [hu], hmt⟩

lemma stripOpt_suffix (lit s : List Char) : ∃ u, u ++ stripOpt lit s = s := by
  unfold stripOpt
  cases h : stripLit lit s with
  | none => exact ⟨[], by simp⟩
  | some r => exact ⟨lit, (stripLit_eq_append h).symm⟩

lemma stripScheme_suffix (s : List Char) : ∃ u, u ++ stripScheme s = s := by
  unfold stripScheme
  cases h : stripLit schemeHttps s with
  | none => exact stripOpt_suffix schemeHttp s
  | some r => exact ⟨schemeHttps, (stripLit_eq_append h).symm⟩

/-- A match of the pattern anywhere exhibits a suffix starting with
`instagram.com/` whose continuation completes the pattern. -/
lemma matchFrom_some_insta {s c : List Char} (h : matchFrom s = some c) :
    ∃ u s2 r, u ++ s2 = s ∧ stripLit instaLit s2 = some r ∧
      segMatchAfter r = true := by
  unfold matchFrom at h
  split at h
  · cases h
  · rename_i s3 hi
    split at h
    · cases h
    · rename_i s4 hseg
      by_cases he : (s4.takeWhile isIdentChar).isEmpty
      · rw [if_pos he] at h; cases h
      · obtain ⟨u1, hu1⟩ := stripScheme_suffix s
        obtain ⟨u2, hu2⟩ := stripOpt_suffix wwwLit (stripScheme s)
        refine ⟨u1 ++ u2, stripOpt wwwLit (stripScheme s), s3, ?_, hi, ?_⟩
        · rw [List.append_assoc, hu2, hu1]
        · unfold segMatchAfter
          rw [hseg]
          simpa using he

lemma matchFrom_some_dot {s c : List Char} (h : matchFrom s = some c) :
    ('.' : Char) ∈ s := by
  obtain ⟨u, s2, r, hu, hi, _⟩ := matchFrom_some_insta h
  have hs2 : s2 = instaLit ++ r := stripLit_eq_append hi
  have : ('.' : Char) ∈ s2 := by
    rw [hs2]
    exact List.mem_append.mpr (Or.inl (by decide))
  rw [← hu]
  exact List.mem_append_right u this

lemma matchFrom_none_of_ident {s : List Char}
    (hid : ∀ c ∈ s, isIdentChar c = true) : matchFrom s = none := by
  cases hm : matchFrom s with
  | none => rfl
  | some c =>
    have := hid _ (matchFrom_some_dot hm)
    exact absurd this (by decide)

lemma searchFrom_none_of_ident {s : List Char}
    (hid : ∀ c ∈ s, isIdentChar c = true) : searchFrom s = none := by
  induction s with
  | nil => rfl
  | cons a t ih =>
    rw [searchFrom, matchFrom_none_of_ident hid]
    exact ih fun c hc => hid c (List.mem_cons_of_mem a hc)

lemma ident_not_pyspace {c : Char} (h : isIdentChar c = true) :
    isPySpace c = false := by
  cases hs : isPySpace c with
  | false => rfl
  | true =>
    simp only [isPySpace, Bool.or_eq_true, beq_iff_eq] at hs
    rcases hs with ((((h1 | h1) | h1) | h1) | h1) | h1 <;>
      (subst h1; exact absurd h (by decide))

lemma dropWhile_eq_self_of {p : Char → Bool} {l : List Char}
    (h : ∀ c ∈ l, p c = false) : l.dropWhile p = l := by
  cases l with
  | nil => rfl
  | cons a t => simp [List.dropWhile_cons, h a (by simp)]

lemma pyStrip_eq_self_of_ident {l : List Char}
    (hid : ∀ c ∈ l, isIdentChar c = true) : pyStrip l = l := by
  have hsp : ∀ c ∈ l, isPySpace c = false := fun c hc => ident_not_pyspace (hid c hc)
  unfold pyStrip
  rw [dropWhile_eq_self_of hsp,
    dropWhile_eq_self_of (fun c hc => hsp c (List.mem_reverse.mp hc)),
    List.reverse_reverse]

lemma noInstaSegMatch_suffix_prop :
    ∀ (s : List Char), noInstaSegMatch s = true →
      ∀ u t, u ++ t = s → ∀ r, stripLit instaLit t = some r →
        segMatchAfter r = false := by
  intro s
  induction s with
  | nil =>
    intro _ u t hut r hr
    have ht : t = [] := (List.append_eq_nil.mp hut).2
    subst ht
    simp [instaLit, stripLit] at hr
  | cons a t2 ih =>
    intro h u t hut r hr
    rw [noInstaSegMatch, Bool.and_eq_true] at h
    obtain ⟨hA, hB⟩ := h
    cases u with
    | nil =>
      simp only [List.nil_append] at hut
      subst hut
      rw [hr] at hA
      simpa using hA
    | cons b u' =>
      have h2 : u' ++ t = t2 := by
        have h3 : b = a ∧ u' ++ t = t2 := by simpa using hut
        exact h3.2
      exact ih hB u' t h2 r hr

lemma extract_none_of_noInsta (url : String)
    (h : noInstaSegMatch (pyStrip url.data) = true) :
    extract_shortcode_from_url url = none := by
  unfold extract_shortcode_from_url
  cases hs : searchFrom (pyStrip url.data) with
  | none => rfl
  | some c =>
    obtain ⟨u, t, hut, hm⟩ := searchFrom_some hs
    obtain ⟨u2, s2, r, hu2, hi, hseg⟩ := matchFrom_some_insta hm
    have happ : (u ++ u2) ++ s2 = pyStrip url.data := by
      rw [List.append_assoc, hu2, hut]
    have := noInstaSegMatch_suffix_prop _ h (u ++ u2) s2 happ r hi
    rw [hseg] at this
    cases this

lemma noInsta_false_exists {s : List Char} (h : noInstaSegMatch s = false) :
    ∃ u t r, u ++ t = s ∧ stripLit instaLit t = some r ∧
      segMatchAfter r = true := by
  induction s with
  | nil => simp [noInstaSegMatch] at h
  | cons a t2 ih =>
    rw [noInstaSegMatch] at h
    cases h1 : (match stripLit instaLit (a :: t2) with
        | some r => !segMatchAfter r
        | none => true) with
    | false =>
      cases hi : stripLit instaLit (a :: t2) with
      | none => rw [hi] at h1; cases h1
      | some r =>
        rw [hi] at h1
        refine ⟨[], a :: t2, r, rfl, hi, ?_⟩
        simpa using h1
    | true =>
      rw [h1, Bool.true_and] at h
      obtain ⟨u, t, r, hut, hi, hseg⟩ := ih h
      exact ⟨a :: u, t, r, by simp [hut], hi, hseg⟩

lemma stripScheme_insta (x : List Char) :
    stripScheme ('i' :: x) = 'i' :: x := by
  unfold stripScheme stripOpt schemeHttps schemeHttp
  simp [stripLit]

lemma stripOptWww_insta (x : List Char) :
    stripOpt wwwLit ('i' :: x) = 'i' :: x := by
  unfold stripOpt wwwLit
  simp [stripLit]

/-- At a position starting with `instagram.com/` the optional scheme and
`www.` groups consume nothing, so the pattern reduces to the segment and
the capture.  This is a pure computation. -/
lemma matchFrom_insta_append (r : List Char) :
    matchFrom (instaLit ++ r) =
      (match stripSeg r with
        | none => none
        | some s4 =>
          if (s4.takeWhile isIdentChar).isEmpty then none
          else some (s4.takeWhile isIdentChar)) := rfl

/-- Conversely, an occurrence of `instagram.com/` with a completing
continuation yields a match of the whole pattern at that position. -/
lemma matchFrom_of_insta {t r : List Char} (hi : stripLit instaLit t = some r)
    (hseg : segMatchAfter r = true) : ∃ c, matchFrom t = some c := by
  have ht : t = instaLit ++ r := stripLit_eq_append hi
  unfold segMatchAfter at hseg
  cases hsg : stripSeg r with
  | none => rw [hsg] at hseg; cases hseg
  | some u =>
    rw [hsg] at hseg
    refine ⟨u.takeWhile isIdentChar, ?_⟩
    rw [ht, matchFrom_insta_append, hsg]
    simp only [Bool.not_eq_true'] at hseg
    simp [hseg]

lemma searchFrom_ne_none_of_suffix {t c : List Char} (hm : matchFrom t = some c) :
    ∀ u, searchFrom (u ++ t) ≠ none := by
  intro u
  induction u with
  | nil =>
    cases t with
    | nil => rw [show matchFrom [] = none from rfl] at hm; cases hm
    | cons a t' => simp [searchFrom, hm]
  | cons b u' ih =>
    rw [List.cons_append, searchFrom]
    cases hmb : matchFrom (b :: (u' ++ t)) with
    | some r => simp
    | none => simpa using ih

/-- Each single-shortcode call attempts exactly its own item. -/
lemma download_post_by_shortcode_attempts (fetch : String → PostOutcome)
    (st : LoaderState) (sc dir : String) :
    attemptsOf (download_post_by_shortcode fetch st sc dir).2.2 = [sc] := by
  cases h : fetch sc <;> simp [download_post_by_shortcode, h, attemptsOf]

/-- The shortcode-file loop attempts every listed shortcode, in order,
regardless of the per-item outcomes. -/
lemma shortcodeLoop_attempts (scs : List String) :
    ∀ (fetch : String → PostOutcome) (st : LoaderState),
      attemptsOf (shortcodeLoop fetch st scs).1 = scs := by
  induction scs with
  | nil => intro fetch st; simp [shortcodeLoop, attemptsOf]
  | cons sc rest ih =>
    intro fetch st
    simp [shortcodeLoop, attemptsOf_append,
      download_post_by_shortcode_attempts, ih]

/-- Every `download_post` call in the profile loop uses the item's own
shortcode as directory and as filename pattern. -/
lemma profileLoop_targets (posts : List Post) :
    ∀ (count : Nat) (st : LoaderState) (d : Nat) (sc t pat : String),
      Ev.downloadCall sc t pat ∈ (profileLoop count st d posts).1 →
      t = sc ∧ pat = sc := by
  induction posts with
  | nil => intro count st d sc t pat h; simp [profileLoop] at h
  | cons p rest ih =>
    intro count st d sc t pat h
    by_cases hc : 0 < count ∧ count ≤ d
    · simp [profileLoop, hc] at h
    · cases hok : p.ok with
      | true =>
        simp only [profileLoop, if_neg hc, hok, if_true, List.mem_cons] at h
        rcases h with h | h | h | h | h
        · cases h
        · cases h
        · obtain ⟨h1, h2, h3⟩ := Ev.downloadCall.inj h
          exact ⟨h2.trans h1.symm, h3.trans h1.symm⟩
        · cases h
        · exact ih count ⟨st.filename_pattern⟩ (d + 1) sc t pat h
      | false =>
        simp only [profileLoop, if_neg hc, hok, Bool.false_eq_true, if_false,
          List.mem_cons] at h
        rcases h with h | h | h | h | h
        · cases h
        · cases h
        · obtain ⟨h1, h2, h3⟩ := Ev.downloadCall.inj h
          exact ⟨h2.trans h1.symm, h3.trans h1.symm⟩
        · cases h
        · exact ih count ⟨p.shortcode⟩ d sc t pat h

/-- Every `download_post` call in the single-shortcode path uses the
item's own shortcode as directory and as filename pattern. -/
lemma download_post_by_shortcode_targets (fetch : String → PostOutcome)
    (st : LoaderState) (sc0 dir : String) :
    ∀ sc t pat,
      Ev.downloadCall sc t pat ∈ (download_post_by_shortcode fetch st sc0 dir).2.2 →
      t = sc ∧ pat = sc := by
  intro sc t pat h
  cases hf : fetch sc0 with
  | fetchError => simp [download_post_by_shortcode, hf] at h
  | downloadError =>
    simp only [download_post_by_shortcode, hf, List.mem_cons] at h
    rcases h with h | h | h | h
    · cases h
    · obtain ⟨h1, h2, h3⟩ := Ev.downloadCall.inj h
      exact ⟨h2.trans h1.symm, h3.trans h1.symm⟩
    · cases h
    · cases h
  | success =>
    simp only [download_post_by_shortcode, hf, List.mem_cons] at h
    rcases h with h | h | h | h
    · cases h
    · obtain ⟨h1, h2, h3⟩ := Ev.downloadCall.inj h
      exact ⟨h2.trans h1.symm, h3.trans h1.symm⟩
    · cases h
    · cases h

/-- Every `download_post` call in the shortcode-file loop uses the item's
own shortcode as directory and as filename pattern. -/
lemma shortcodeLoop_targets (scs : List String) :
    ∀ (fetch : String → PostOutcome) (st : LoaderState) (sc t pat : String),
      Ev.downloadCall sc t pat ∈ (shortcodeLoop fetch st scs).1 →
      t = sc ∧ pat = sc := by
  induction scs with
  | nil => intro fetch st sc t pat h; simp [shortcodeLoop] at h
  | cons sc0 rest ih =>
    intro fetch st sc t pat h
    simp only [shortcodeLoop, List.mem_append] at h
    rcases h with h | h
    · exact download_post_by_shortcode_targets fetch st sc0 "." sc t pat h
    · exact ih fetch _ sc t pat h

/-! ### Claims -/

/-- C1 (amended).  Per-item failure isolation holds: in the profile loop a
download failure is caught at the item boundary and reported, and every
item the listing yields is still attempted, in order; likewise the
shortcode-file batch attempts every (stripped, non-blank) line in file
order regardless of per-item outcomes.  The original claim's count
equation `attempted = yielded (up to the cap)` holds as stated for the
uncapped runs modelled here; with a positive cap it fails because the cap
counts successes (see the C1 counterexample and C2). -/
theorem c1_failure_isolation :
    ∀ (fetch : String → PostOutcome) (st st2 : LoaderState)
      (posts : List Post) (lines : List String) (fp : String),
      attemptsOf (profileLoop 0 st 0 posts).1 = posts.map Post.shortcode ∧
      failuresOf (profileLoop 0 st 0 posts).1 =
        (posts.filter (fun p => !p.ok)).map Post.shortcode ∧
      attemptsOf (download_shortcodes_from_file true lines fetch st2 fp).1 =
        cleanLines lines := by
  intro fetch st st2 posts lines fp
  refine ⟨profileLoop_attempts_nocap posts st 0,
    profileLoop_failures_nocap posts st 0, ?_⟩
  simp [download_shortcodes_from_file, shortcodeLoop_attempts]

/-- C1 counterexample.  With cap 1 over a listing yielding three items of
which the first two fail, the loop attempts all three items: `attempted`
is 3, not the claimed `min(yielded, cap) = 1`, and not `≤ cap` either. -/
theorem c1_counterexample :
    attemptsOf (profileLoop 1 ⟨"d"⟩ 0
        [⟨"P", false⟩, ⟨"Q", false⟩, ⟨"R", true⟩]).1 = ["P", "Q", "R"] ∧
    ¬((attemptsOf (profileLoop 1 ⟨"d"⟩ 0
        [⟨"P", false⟩, ⟨"Q", false⟩, ⟨"R", true⟩]).1).length ≤ 1) := by
  decide

/-- C2 (amended).  The cap counts successful downloads, not attempts:
with a positive cap the attempted items are exactly the shortest prefix
of the listing containing `count` successes (the whole listing when it
holds fewer), so failed attempts do not count toward the cap.  When every
attempt succeeds this coincides with the first `count` items in iteration
order. -/
theorem c2_cap_counts_successes :
    ∀ (count : Nat) (st : LoaderState) (posts : List Post), 0 < count →
      attemptsOf (profileLoop count st 0 posts).1 =
        (firstNSucc count posts).map Post.shortcode := by
  intro count st posts h
  simpa using profileLoop_attempts_cap posts count st 0 h

/-- C2 witness: the amended theorem applied at a concrete run. -/
theorem c2_witness :
    0 < 2 ∧
    attemptsOf (profileLoop 2 ⟨"b"⟩ 0
        [⟨"m", true⟩, ⟨"n", false⟩, ⟨"o", true⟩]).1 =
      (firstNSucc 2 [⟨"m", true⟩, ⟨"n", false⟩, ⟨"o", true⟩]).map Post.shortcode :=
  ⟨by decide, c2_cap_counts_successes 2 ⟨"b"⟩ _ (by decide)⟩

/-- C2 counterexample.  Cap 1 over `[X (fails), Y (succeeds)]`: the loop
attempts two items, not exactly one, because the failed attempt does not
count toward the cap. -/
theorem c2_counterexample :
    attemptsOf (profileLoop 1 ⟨"d"⟩ 0 [⟨"X", false⟩, ⟨"Y", true⟩]).1 = ["X", "Y"] ∧
    attemptsOf (profileLoop 1 ⟨"d"⟩ 0 [⟨"X", false⟩, ⟨"Y", true⟩]).1 ≠ ["X"] := by
  decide

/-- C3 (amended).  The cap is evaluated after pulling: the `for` statement
materializes the next element and only then the body checks the cap and
breaks.  With cap `N > 0` over an all-successful listing of more than `N`
posts, exactly the first `N` items are attempted but `N + 1` elements are
pulled — the `(N+1)`-th element is materialized and then discarded. -/
theorem c3_cap_checked_after_pull :
    ∀ (count : Nat) (st : LoaderState) (posts : List Post),
      0 < count → (∀ p ∈ posts, p.ok = true) → count < posts.length →
      attemptsOf (profileLoop count st 0 posts).1 =
        (posts.take count).map Post.shortcode ∧
      pullsOf (profileLoop count st 0 posts).1 =
        (posts.take (count + 1)).map Post.shortcode := by
  intro count st posts h hok hlen
  constructor
  · have ha := profileLoop_attempts_cap posts count st 0 h
    rw [Nat.sub_zero] at ha
    rw [ha, firstNSucc_allok posts count h hok]
  · have hp := profileLoop_pulls_cap posts count st 0 h hok (by omega)
    rw [Nat.sub_zero] at hp
    exact hp

/-- C3 witness: the amended theorem applied at a concrete run. -/
theorem c3_witness :
    (0 < 1 ∧ (∀ p ∈ [(⟨"W1", true⟩ : Post), ⟨"W2", true⟩], p.ok = true) ∧
      1 < ([(⟨"W1", true⟩ : Post), ⟨"W2", true⟩]).length) ∧
    pullsOf (profileLoop 1 ⟨"base"⟩ 0 [⟨"W1", true⟩, ⟨"W2", true⟩]).1 =
      (([(⟨"W1", true⟩ : Post), ⟨"W2", true⟩]).take 2).map Post.shortcode :=
  ⟨⟨by decide, by decide, by decide⟩,
    (c3_cap_checked_after_pull 1 ⟨"base"⟩ _ (by decide) (by decide) (by decide)).2⟩

/-- C3 counterexample.  Cap 1 over two all-successful posts: the second
element is pulled from the listing (materialized) even though it is never
attempted, refuting that the `(N+1)`-th element is never requested. -/
theorem c3_counterexample :
    pullsOf (profileLoop 1 ⟨"d"⟩ 0 [⟨"A", true⟩, ⟨"B", true⟩]).1 = ["A", "B"] ∧
    attemptsOf (profileLoop 1 ⟨"d"⟩ 0 [⟨"A", true⟩, ⟨"B", true⟩]).1 = ["A"] := by
  decide

/-- C4 (amended).  A missing shortcode file is surfaced before any element
is produced — the diagnostic is the only event and nothing is attempted —
but the process then returns normally: the exit status is 0, not
non-zero. -/
theorem c4_missing_file_prints_and_returns :
    ∀ (w : World) (a : Args) (fp : String),
      a.shortcodes_file = some fp →
      create_instance_ok w a.username = true →
      w.fileExists = false →
      (mainModel w a).exitCode = 0 ∧
      (mainModel w a).evs = [Ev.msg ("Shortcode file " ++ fp ++ " not found.")] := by
  intro w a fp hsf hok hfe
  constructor <;>
    simp [mainModel, hsf, hok, download_shortcodes_from_file, hfe]

/-- C4 witness: the amended theorem applied at a concrete invocation. -/
theorem c4_witness :
    (mainModel ⟨true, true, [], fun _ => PostOutcome.success, false, [], "dp"⟩
        ⟨none, none, 0, "downloads", false, none, none, some "codes.txt"⟩).exitCode = 0 ∧
    (mainModel ⟨true, true, [], fun _ => PostOutcome.success, false, [], "dp"⟩
        ⟨none, none, 0, "downloads", false, none, none, some "codes.txt"⟩).evs =
      [Ev.msg ("Shortcode file " ++ "codes.txt" ++ " not found.")] :=
  c4_missing_file_prints_and_returns _ _ "codes.txt" rfl rfl rfl

/-- C4 counterexample.  File-line mode with a non-existent path: the run
prints the diagnostic, attempts nothing, and exits with status 0 — not
with a non-zero status as claimed. -/
theorem c4_counterexample :
    (mainModel ⟨true, true, [], fun _ => PostOutcome.success, false, [], "dp"⟩
        ⟨none, none, 0, "downloads", false, none, none, some "list.txt"⟩).exitCode = 0 ∧
    attemptsOf (mainModel ⟨true, true, [], fun _ => PostOutcome.success, false, [], "dp"⟩
        ⟨none, none, 0, "downloads", false, none, none, some "list.txt"⟩).evs = [] ∧
    (mainModel ⟨true, true, [], fun _ => PostOutcome.success, false, [], "dp"⟩
        ⟨none, none, 0, "downloads", false, none, none, some "list.txt"⟩).evs =
      [Ev.msg "Shortcode file list.txt not found."] := by
  refine ⟨rfl, rfl, rfl⟩

/-- C5 (amended).  The resolver has no identifier pass-through branch: for
every input consisting solely of characters from `[A-Za-z0-9_-]` it
returns no shortcode at all (the pattern requires `instagram.com/`, whose
`.` and `/` are outside the identifier class).  Direct shortcodes reach
the download path only through the separate `-s` mode, which bypasses the
resolver. -/
theorem c5_identifier_not_passed_through :
    ∀ (s : String), (∀ c ∈ s.data, isIdentChar c = true) →
      extract_shortcode_from_url s = none := by
  intro s hid
  unfold extract_shortcode_from_url
  rw [pyStrip_eq_self_of_ident hid, searchFrom_none_of_ident hid]

/-- C5 witness: the amended theorem applied at a concrete identifier. -/
theorem c5_witness :
    (∀ c ∈ ("Shortcode_99-A" : String).data, isIdentChar c = true) ∧
    extract_shortcode_from_url "Shortcode_99-A" = none :=
  ⟨by decide, c5_identifier_not_passed_through _ (by decide)⟩

/-- C5 counterexample.  `"ABC123"` lies in the identifier class, yet the
resolver does not return it unchanged — it returns `none`. -/
theorem c5_counterexample :
    (∀ c ∈ ("ABC123" : String).data, isIdentChar c = true) ∧
    extract_shortcode_from_url "ABC123" ≠ some "ABC123" ∧
    extract_shortcode_from_url "ABC123" = none := by
  refine ⟨by decide, by decide, by decide⟩

/-- C6 (amended).  Resolution is an unanchored substring search: the
resolver reports `NotFound` exactly when no suffix of the stripped input
starts with `instagram.com/` followed by a `p`/`reel`/`tv` segment and an
identifier character.  A URL that lacks such a segment is rejected, but
the host is not validated: a URL of another host that merely embeds
`instagram.com/p/...` in its path or query is accepted. -/
theorem c6_resolver_is_substring_search :
    ∀ (url : String),
      extract_shortcode_from_url url = none ↔
        noInstaSegMatch (pyStrip url.data) = true := by
  intro url
  constructor
  · intro h
    cases hn : noInstaSegMatch (pyStrip url.data) with
    | true => rfl
    | false =>
      obtain ⟨u, t, r, hut, hi, hseg⟩ := noInsta_false_exists hn
      obtain ⟨c, hm⟩ := matchFrom_of_insta hi hseg
      have hne := searchFrom_ne_none_of_suffix hm u
      rw [hut] at hne
      unfold extract_shortcode_from_url at h
      cases hs : searchFrom (pyStrip url.data) with
      | none => exact absurd hs hne
      | some cs => rw [hs] at h; simp at h
  · exact extract_none_of_noInsta url

/-- C6 witness: the characterization applied at a concrete wrong-host,
non-embedding URL. -/
theorem c6_witness :
    extract_shortcode_from_url "https://twitter.com/p/ABC" = none :=
  (c6_resolver_is_substring_search "https://twitter.com/p/ABC").mpr (by decide)

/-- C6 counterexample.  A URL whose host is `evil.com` — not
`instagram.com` or `www.instagram.com` — still resolves to a shortcode,
because `re.search` finds `instagram.com/p/ABC123` inside the path. -/
theorem c6_counterexample :
    specUrlHost "https://evil.com/instagram.com/p/ABC123" = "evil.com" ∧
    specUrlHost "https://evil.com/instagram.com/p/ABC123" ≠ "instagram.com" ∧
    specUrlHost "https://evil.com/instagram.com/p/ABC123" ≠ "www.instagram.com" ∧
    extract_shortcode_from_url "https://evil.com/instagram.com/p/ABC123" = some "ABC123" := by
  refine ⟨by decide, by decide, by decide, by decide⟩

/-- C7 (amended).  URL mode treats a resolution failure as fatal, not as a
per-item error: when the URL yields no shortcode, `main` prints the
diagnostic and the process exits with status 1. -/
theorem c7_url_failure_exits_nonzero :
    ∀ (w : World) (a : Args) (u : String),
      a.shortcodes_file = none →
      a.post_url = some u →
      create_instance_ok w a.username = true →
      extract_shortcode_from_url u = none →
      (mainModel w a).exitCode = 1 ∧
      (mainModel w a).evs =
        [Ev.msg "Error: Could not extract shortcode from the provided URL"] := by
  intro w a u hsf hpu hok hex
  have hguard : ¬(a.target = none ∧ a.shortcode = none ∧ a.post_url = none) := by
    intro hg
    rw [hpu] at hg
    exact Option.noConfusion hg.2.2
  constructor <;> simp [mainModel, hsf, hpu, hok, hguard, hex]

/-- C7 witness: the amended theorem applied at a concrete invocation. -/
theorem c7_witness :
    extract_shortcode_from_url "http://imgur.com/gallery/XYZ" = none ∧
    (mainModel ⟨true, true, [], fun _ => PostOutcome.success, true, [], "dp"⟩
        ⟨none, none, 0, "downloads", false, none,
          some "http://imgur.com/gallery/XYZ", none⟩).exitCode = 1 :=
  ⟨by decide,
    (c7_url_failure_exits_nonzero
      ⟨true, true, [], fun _ => PostOutcome.success, true, [], "dp"⟩
      ⟨none, none, 0, "downloads", false, none,
        some "http://imgur.com/gallery/XYZ", none⟩
      "http://imgur.com/gallery/XYZ" rfl rfl rfl (by decide)).1⟩

/-- C7 counterexample.  URL mode with an unresolvable URL: the process
exits with failure status 1, refuting that the run is not aborted with a
failure status. -/
theorem c7_counterexample :
    extract_shortcode_from_url "https://example.com/video/ABC" = none ∧
    (mainModel ⟨true, true, [], fun _ => PostOutcome.success, true, [], "dp"⟩
        ⟨none, none, 0, "downloads", false, none,
          some "https://example.com/video/ABC", none⟩).exitCode = 1 := by
  refine ⟨by decide, rfl⟩

/-- C8 (amended).  `filename_pattern` is set to the item's shortcode
before each download but restored only when the download returns: when
`download_post` raises, the restore line is skipped and the pattern keeps
the failed item's shortcode.  (On a fetch failure the pattern was never
set, so it is unchanged.) -/
theorem c8_pattern_restored_only_on_success :
    ∀ (fetch : String → PostOutcome) (st : LoaderState) (sc dir : String)
      (count d : Nat) (p : Post),
      (download_post_by_shortcode fetch st sc dir).2.1.filename_pattern =
        (match fetch sc with
          | PostOutcome.fetchError => st.filename_pattern
          | PostOutcome.downloadError => sc
          | PostOutcome.success => st.filename_pattern) ∧
      (profileLoop count st d [p]).2.1.filename_pattern =
        (if 0 < count ∧ count ≤ d then st.filename_pattern
          else if p.ok then st.filename_pattern else p.shortcode) := by
  intro fetch st sc dir count d p
  constructor
  · cases h : fetch sc <;> simp [download_post_by_shortcode, h]
  · by_cases hc : 0 < count ∧ count ≤ d
    · simp [profileLoop, hc]
    · cases hok : p.ok <;> simp [profileLoop, hc, hok]

/-- C8 counterexample.  A failing download with prior pattern `"orig"`:
afterwards `filename_pattern` is the item's shortcode `"AAA"`, not its
value from before the item. -/
theorem c8_counterexample :
    (download_post_by_shortcode (fun _ => PostOutcome.downloadError)
        ⟨"orig"⟩ "AAA" ".").2.1.filename_pattern = "AAA" ∧
    ("AAA" : String) ≠ "orig" := by
  refine ⟨rfl, by decide⟩

/-- C9 (confirmed).  The output-directory argument has no effect: both
download operations are literally independent of their `save_dir`
argument, `main` is independent of `args.directory`, and every
`download_post` call targets a directory named exactly by the item's
shortcode. -/
theorem c9_directory_no_effect :
    (∀ (fetch : String → PostOutcome) (st : LoaderState) (sc d1 d2 : String),
      download_post_by_shortcode fetch st sc d1 =
        download_post_by_shortcode fetch st sc d2) ∧
    (∀ (pe : Bool) (posts : List Post) (st : LoaderState) (tp d1 d2 : String)
        (c : Nat) (po : Bool),
      download_profile_posts pe posts st tp d1 c po =
        download_profile_posts pe posts st tp d2 c po) ∧
    (∀ (count : Nat) (st : LoaderState) (d : Nat) (posts : List Post)
        (sc t pat : String),
      Ev.downloadCall sc t pat ∈ (profileLoop count st d posts).1 → t = sc) ∧
    (∀ (fetch : String → PostOutcome) (st : LoaderState) (scs : List String)
        (sc t pat : String),
      Ev.downloadCall sc t pat ∈ (shortcodeLoop fetch st scs).1 → t = sc) ∧
    (∀ (w : World) (u tgt : Option String) (c : Nat) (d1 d2 : String) (po : Bool)
        (s pu sf : Option String),
      mainModel w ⟨u, tgt, c, d1, po, s, pu, sf⟩ =
        mainModel w ⟨u, tgt, c, d2, po, s, pu, sf⟩) := by
  refine ⟨fun _ _ _ _ _ => rfl, fun _ _ _ _ _ _ _ _ => rfl, ?_, ?_, ?_⟩
  · intro count st d posts sc t pat h
    exact (profileLoop_targets posts count st d sc t pat h).1
  · intro fetch st scs sc t pat h
    exact (shortcodeLoop_targets scs fetch st sc t pat h).1
  · intro w u tgt c d1 d2 po s pu sf
    rfl

/-- C9 witness: the target-directory clause applied at a concrete run. -/
theorem c9_witness :
    Ev.downloadCall "A" "A" "A" ∈ (profileLoop 0 ⟨"d"⟩ 0 [⟨"A", true⟩]).1 ∧
    ("A" : String) = "A" :=
  ⟨by decide,
    c9_directory_no_effect.2.2.1 0 ⟨"d"⟩ 0 [⟨"A", true⟩] "A" "A" "A" (by decide)⟩

/-- C10 (confirmed).  The posts-only flag has no effect: the profile
download operation and `main` are literally independent of it — the flag
is accepted but never consulted. -/
theorem c10_posts_only_no_effect :
    (∀ (pe : Bool) (posts : List Post) (st : LoaderState) (tp dir : String)
        (c : Nat) (b1 b2 : Bool),
      download_profile_posts pe posts st tp dir c b1 =
        download_profile_posts pe posts st tp dir c b2) ∧
    (∀ (w : World) (u tgt : Option String) (c : Nat) (dir : String) (b1 b2 : Bool)
        (s pu sf : Option String),
      mainModel w ⟨u, tgt, c, dir, b1, s, pu, sf⟩ =
        mainModel w ⟨u, tgt, c, dir, b2, s, pu, sf⟩) :=
  ⟨fun _ _ _ _ _ _ _ _ => rfl, fun _ _ _ _ _ _ _ _ _ _ => rfl⟩
